import Mathlib

/-!
# Verification of `polfit.py`

A shallow embedding of the polynomial-fit / Dunham-analysis program
`polfit.py` (diatomic potential-energy-curve spectroscopy).

Modelling conventions:
* Machine floats are modelled by exact rationals `ℚ`.  All the arithmetic
  in the source is elementary field arithmetic, so values are represented
  exactly; where Python float semantics produce `inf`/`nan` (division by a
  zero `numpy.float64`), the rational model produces the Lean junk value
  `0` — the theorems below that touch such points only ever assert
  *control-flow* facts (whether an exception is raised), never the junk
  values themselves.
* `np.polyfit` (least-squares solve) and the eigenvalue root-finder behind
  `numpy.poly1d.r` are external library routines; they enter the model as
  function parameters `fitpoly` (returning the coefficient list, highest
  degree first, as `np.polyfit` does) and `rootsOf` (returning the list of
  complex roots as real/imaginary pairs).  Both are plain functions, which
  also encodes that they are deterministic.
* Polynomials are coefficient lists, highest degree first, exactly as
  `np.polyfit`/`np.poly1d` store them.  `evalPoly` is Horner's rule, the
  evaluation scheme of `np.polyval`/`poly1d.__call__`; `deriv1` is the
  coefficient transformation performed by `np.polyder`.
* Exceptions: CPython raises `ZeroDivisionError` when a plain `float` is
  divided by zero, while `numpy.float64` division by zero silently yields
  `inf`/`nan`.  `dunham` therefore carries a flag `ptPlain` recording
  whether its `pt` argument holds plain Python floats (the
  "MINIMUM NOT FOUND" branch of `polfit` returns the plain list
  `[0.0]*7`) or `numpy.float64` values (the Taylor-coefficient branch).
  The only place in `dunham` where a plain float can be the divisor is
  `pt[i+3]/pt[2]`: every other division has a `numpy.float64` divisor
  (`re` comes from a numpy array, `np.abs`/`np.sqrt` return
  `numpy.float64`), so no other operation can raise.
-/

/-- `TO_CM = 219474.63067` (Hartree → cm⁻¹), from the constant table. -/
def TO_CM : ℚ := 219474.63067

/-- `TO_EV = 27.2113839` (Hartree → eV), from the constant table. -/
def TO_EV : ℚ := 27.2113839

/-- `TO_ANGSTROM = 0.5291761` (Bohr → Å), from the constant table. -/
def TO_ANGSTROM : ℚ := 0.5291761

/-- `FORCE_MASS = 1822.88853` (amu → atomic mass unit), from the constant table. -/
def FORCE_MASS : ℚ := 1822.88853

/-- Index of the first minimal element, the semantics of `np.argmin`
(ties broken by first occurrence). -/
def argminIdx : List ℚ → ℕ
  | [] => 0
  | [_] => 0
  | a :: b :: t =>
    if a ≤ (b :: t).getD (argminIdx (b :: t)) 0 then 0 else argminIdx (b :: t) + 1

/-- Python's `min` on a (nonempty) list. -/
def listMin (l : List ℚ) : ℚ := l.foldl min (l.headD 0)

/-- Python's `max` on a (nonempty) list. -/
def listMax (l : List ℚ) : ℚ := l.foldl max (l.headD 0)

/-- `np.abs` on one value, written out so that it evaluates by kernel
reduction (it equals Mathlib's `|q|`, see `pyAbs_eq_abs`). -/
def pyAbs (q : ℚ) : ℚ := if q < 0 then -q else q

/-- Horner evaluation of a highest-degree-first coefficient list: the
evaluation scheme used by `numpy.poly1d.__call__` (`np.polyval`). -/
def evalPoly (c : List ℚ) (t : ℚ) : ℚ := c.foldl (fun acc a => acc * t + a) 0

/-- One differentiation step on a highest-degree-first coefficient list:
`np.polyder` computes `p[:-1] * arange(n, 0, -1)` with `n = len(p) - 1`. -/
def deriv1 (c : List ℚ) : List ℚ :=
  c.dropLast.zipWith (fun a k => a * k)
    (((List.range (c.length - 1)).reverse).map fun k => ((k + 1 : ℕ) : ℚ))

/-- `m`-fold differentiation, the recursion of `np.polyder(p, m)`
(`m = 0` returns `p`, otherwise recurse on the one-step derivative). -/
def derivN (c : List ℚ) : ℕ → List ℚ
  | 0 => c
  | i + 1 => derivN (deriv1 c) i

/-- The contents of a `FitResult`: the four values `polfit` returns
(`p, xref, re, pt`). -/
structure FitResult where
  p : List ℚ
  xref : ℚ
  re : ℚ
  pt : List ℚ
deriving DecidableEq

/-- `xref = x[np.argmin(y)]` (line 16 of `polfit.py`). -/
def xrefOf (x y : List ℚ) : ℚ := x.getD (argminIdx y) 0

/-- `xshift = x - xref` (line 17). -/
def xshiftOf (x y : List ℚ) : List ℚ := x.map (fun v => v - xrefOf x y)

/-- The imaginary-part tolerance `1e-8` of the root filter (line 26). -/
def tolIm : ℚ := 1 / 100000000

/-- `crit_points` (lines 24–26): real parts of those derivative roots whose
imaginary part satisfies `np.abs(x.imag) < 1e-8` and whose real part lies
strictly between `min(xshift) - 0.1` and `max(xshift) + 0.1`.
`fitpoly` stands for `np.polyfit`, `rootsOf` for `p.deriv().r`. -/
def critPointsOf (fitpoly : List ℚ → List ℚ → ℕ → List ℚ)
    (rootsOf : List ℚ → List (ℚ × ℚ)) (x y : List ℚ) (n : ℕ) : List ℚ :=
  ((rootsOf (deriv1 (fitpoly (xshiftOf x y) y n))).filter fun r =>
      decide (pyAbs r.2 < tolIm ∧
        listMin (xshiftOf x y) - 1/10 < r.1 ∧ r.1 < listMax (xshiftOf x y) + 1/10)).map
    Prod.fst

/-- `polfit(x, y, n)` (lines 13–45).  If no critical point passes the filter
the source prints a warning and returns the defaults `re = xref`,
`pt = [0.0]*7`; otherwise it takes `dx = crit_points[0]` and returns the
Taylor coefficients `p.deriv(i)(dx)/factorial(i)` for `i = 0..6`. -/
def polfit (fitpoly : List ℚ → List ℚ → ℕ → List ℚ)
    (rootsOf : List ℚ → List (ℚ × ℚ)) (x y : List ℚ) (n : ℕ) : FitResult :=
  match critPointsOf fitpoly rootsOf x y n with
  | [] =>
    ⟨fitpoly (xshiftOf x y) y n, xrefOf x y, xrefOf x y, List.replicate 7 0⟩
  | dx :: _ =>
    ⟨fitpoly (xshiftOf x y) y n, xrefOf x y, xrefOf x y + dx,
      (List.range 7).map fun i =>
        evalPoly (derivN (fitpoly (xshiftOf x y) y n) i) dx / (Nat.factorial i : ℚ)⟩

/-- Interpretation of a coefficient list (highest degree first) as a
polynomial over `ℚ`, the reference notion for "the fitted polynomial".
(Spec-side mathematical object, not program code, hence noncomputable.) -/
noncomputable def toPoly : List ℚ → Polynomial ℚ
  | [] => 0
  | a :: rest => Polynomial.C a * Polynomial.X ^ rest.length + toPoly rest

/-- The Python exceptions that `dunham` can actually raise. -/
inductive PyError where
  | zeroDivisionError
deriving DecidableEq

/-- The eight scalars `dunham` returns: `Ee, Be, Ae, We, Wexe, Weye, De, D0`. -/
structure SpecConsts where
  Ee : ℚ
  Be : ℚ
  Ae : ℚ
  We : ℚ
  Wexe : ℚ
  Weye : ℚ
  De : ℚ
  D0 : ℚ
deriving DecidableEq

/-- `dunham(re, pt, mu, n, Emax)` (lines 47–79).  `sq` stands for the
external `np.sqrt`.  `ptPlain` records whether `pt` holds plain Python
floats (see the module comment): in that case `pt[i+3]/pt[2]` with
`pt[2] == 0` raises `ZeroDivisionError`; with `numpy.float64` entries the
division silently yields `inf`/`nan` (junk `0` in the rational model).
No other division in `dunham` has a plain-float divisor, and the source
contains no validation of `mu` or `pt[2]`. -/
def dunham (sq : ℚ → ℚ) (re : ℚ) (pt : List ℚ) (ptPlain : Bool) (mu : ℚ)
    (n : ℕ) (Emax : ℚ) : Except PyError SpecConsts :=
  let An := mu * FORCE_MASS
  let Ee := pt.getD 0 0
  let Be := 0.5 * TO_CM / (An * re ^ 2)
  let We := TO_CM * sq (2.0 * pyAbs (pt.getD 2 0) / An)
  -- the npt loop (lines 57-60): `npi = (pt[i+3]/pt[2])*re**(i+1)`
  if ptPlain ∧ pt.getD 2 0 = 0 then .error .zeroDivisionError
  else
    let npt := (List.range 4).map fun i => pt.getD (i + 3) 0 / pt.getD 2 0 * re ^ (i + 1)
    let Ae := -6.0 * Be ^ 2 * (1.0 + npt.getD 0 0) / We
    let Wexe := if n > 5 then -1.5 * (npt.getD 1 0 - 1.25 * npt.getD 0 0 ^ 2) * Be else 0.0
    let Weye := if n > 5 then
        0.5 * (10.0 * npt.getD 3 0 - 35.0 * npt.getD 0 0 * npt.getD 2 0
          - 8.5 * npt.getD 1 0 ^ 2 + 56.125 * npt.getD 1 0 * npt.getD 0 0 ^ 2
          - 22.03125 * npt.getD 0 0 ^ 4) * Be ^ 2 / We
      else 0.0
    let De := if Emax ≠ 0 then (Emax - Ee) * TO_EV else 0.0
    let D0 := if Emax ≠ 0 then (Emax - Ee) * TO_EV - 0.5 * (We - 0.5 * Wexe) * TO_EV / TO_CM
      else 0.0
    .ok ⟨Ee, Be, Ae, We, Wexe, Weye, De, D0⟩

/-- One iteration of the batch loop (lines 141–148): fit the column, then
call `dunham(re, pt, args.mu)` — note that the call site passes neither
`n` nor `Emax`, so they take the Python defaults `6` and `0`, regardless
of the `-order` used for the fit.  `pt` holds plain Python floats exactly
when no critical point was found (the `[0.0]*7` branch). -/
def batchRow (fitpoly : List ℚ → List ℚ → ℕ → List ℚ)
    (rootsOf : List ℚ → List (ℚ × ℚ)) (sq : ℚ → ℚ)
    (x y : List ℚ) (poly_order : ℕ) (mu : ℚ) : Except PyError (FitResult × SpecConsts) :=
  let fr := polfit fitpoly rootsOf x y poly_order
  (dunham sq fr.re fr.pt (decide (critPointsOf fitpoly rootsOf x y poly_order = []))
      mu 6 0).map fun c => (fr, c)

/-- The numeric part of a results-table row (line 147):
`[E, re, re*TO_ANGSTROM, B, A, W, Wx, Wy, De, D0]`. -/
def resultRow (fr : FitResult) (c : SpecConsts) : List ℚ :=
  [c.Ee, fr.re, fr.re * TO_ANGSTROM, c.Be, c.Ae, c.We, c.Wexe, c.Weye, c.De, c.D0]

deriving instance DecidableEq for Except

/-- The root filter of lines 24–26, in the spec's words: a root is kept when
its imaginary part is within `1e-8` of zero and its real part lies strictly
between `min(shifted positions) - 0.1` and `max(shifted positions) + 0.1`. -/
def keepRoot (xs : List ℚ) (r : ℚ × ℚ) : Prop :=
  |r.2| < tolIm ∧ listMin xs - 1/10 < r.1 ∧ r.1 < listMax xs + 1/10

instance (xs : List ℚ) (r : ℚ × ℚ) : Decidable (keepRoot xs r) := by
  unfold keepRoot; infer_instance

/-! ## Supporting lemmas -/

theorem pyAbs_eq_abs (q : ℚ) : pyAbs q = |q| := by
  unfold pyAbs
  split
  · exact (abs_of_neg (by assumption)).symm
  · exact (abs_of_nonneg (not_lt.mp (by assumption))).symm

theorem length_deriv1 (c : List ℚ) : (deriv1 c).length = c.length - 1 := by
  simp [deriv1]

theorem mults_succ (n : ℕ) :
    ((List.range (n + 1)).reverse).map (fun k => ((k + 1 : ℕ) : ℚ))
      = ((n + 1 : ℕ) : ℚ) :: ((List.range n).reverse).map (fun k => ((k + 1 : ℕ) : ℚ)) := by
  rw [List.range_succ, List.reverse_append]
  simp

theorem deriv1_cons (a b : ℚ) (t : List ℚ) :
    deriv1 (a :: b :: t) = a * ((t.length + 1 : ℕ) : ℚ) :: deriv1 (b :: t) := by
  have h1 : (a :: b :: t).length - 1 = t.length + 1 := by simp
  have h2 : (b :: t).length - 1 = t.length := by simp
  rw [deriv1, deriv1, h1, h2, mults_succ, List.dropLast_cons₂, List.zipWith_cons_cons]

theorem toPoly_deriv1 : ∀ c : List ℚ, toPoly (deriv1 c) = Polynomial.derivative (toPoly c)
  | [] => by simp [deriv1, toPoly]
  | [a] => by simp [deriv1, toPoly]
  | a :: b :: t => by
    have ih := toPoly_deriv1 (b :: t)
    have hl : (deriv1 (b :: t)).length = t.length := by rw [length_deriv1]; simp
    calc toPoly (deriv1 (a :: b :: t))
        = Polynomial.C (a * ((t.length + 1 : ℕ) : ℚ)) * Polynomial.X ^ t.length
            + toPoly (deriv1 (b :: t)) := by rw [deriv1_cons, toPoly, hl]
      _ = Polynomial.derivative (Polynomial.C a * Polynomial.X ^ (t.length + 1))
            + Polynomial.derivative (toPoly (b :: t)) := by
            rw [ih, Polynomial.derivative_C_mul, Polynomial.derivative_X_pow, map_mul]
            push_cast
            ring
      _ = Polynomial.derivative (toPoly (a :: b :: t)) := by
            conv_rhs => rw [toPoly]
            rw [map_add, List.length_cons]

theorem toPoly_derivN : ∀ (i : ℕ) (c : List ℚ),
    toPoly (derivN c i) = Polynomial.derivative^[i] (toPoly c)
  | 0, _ => rfl
  | i + 1, c => by
    rw [derivN, toPoly_derivN i (deriv1 c), toPoly_deriv1, Function.iterate_succ_apply]

theorem evalPoly_foldl_aux (t : ℚ) : ∀ (c : List ℚ) (acc : ℚ),
    c.foldl (fun a b => a * t + b) acc
      = acc * t ^ c.length + c.foldl (fun a b => a * t + b) 0
  | [], acc => by simp
  | d :: c, acc => by
    have h1 := evalPoly_foldl_aux t c (acc * t + d)
    have h2 := evalPoly_foldl_aux t c (0 * t + d)
    simp only [List.foldl_cons, List.length_cons] at *
    rw [h1, h2]; ring

/-- Horner evaluation agrees with evaluation of the interpreted polynomial. -/
theorem evalPoly_toPoly : ∀ (c : List ℚ) (t : ℚ), evalPoly c t = (toPoly c).eval t
  | [], t => by simp [evalPoly, toPoly]
  | a :: c, t => by
    have ih := evalPoly_toPoly c t
    rw [toPoly]
    simp only [evalPoly, List.foldl_cons] at *
    rw [evalPoly_foldl_aux t c (0 * t + a), ih]
    simp

theorem getD_range_map (f : ℕ → ℚ) {i n : ℕ} (hi : i < n) :
    (((List.range n).map f).getD i 0) = f i := by
  rw [List.getD_eq_getElem?_getD, List.getElem?_map, List.getElem?_range hi]
  rfl

theorem argminIdx_le : ∀ (y : List ℚ) (j : ℕ), j < y.length →
    y.getD (argminIdx y) 0 ≤ y.getD j 0
  | [], j, hj => by simp at hj
  | [a], 0, _ => by simp [argminIdx]
  | [a], k + 1, hj => by
    simp at hj
  | a :: b :: t, j, hj => by
    rw [argminIdx]
    by_cases h : a ≤ (b :: t).getD (argminIdx (b :: t)) 0
    · rw [if_pos h]
      match j with
      | 0 => simp
      | k + 1 =>
        have := argminIdx_le (b :: t) k (by simpa using hj)
        simpa using h.trans this
    · rw [if_neg h]
      have hlt := le_of_lt (not_le.mp h)
      match j with
      | 0 => simpa using hlt
      | k + 1 =>
        have := argminIdx_le (b :: t) k (by simpa using hj)
        simpa using this

/-! ## Concrete instruments for witnesses

Concrete stand-ins for the external `np.polyfit`, root-finder and
`np.sqrt`, used to run the embedded program on explicit inputs. -/

/-- A fit routine returning the quadratic `t^2` (coefficients highest first). -/
def fitQuad : List ℚ → List ℚ → ℕ → List ℚ := fun _ _ _ => [1, 0, 0]

/-- A fit routine returning the quartic `t^4 + t^3 + t^2`. -/
def fitQuartic : List ℚ → List ℚ → ℕ → List ℚ := fun _ _ _ => [1, 1, 1, 0, 0]

/-- A root-finder returning the single real root `0`. -/
def rootsAtZero : List ℚ → List (ℚ × ℚ) := fun _ => [(0, 0)]

/-- A root-finder returning the single real root `1`. -/
def rootsAtOne : List ℚ → List (ℚ × ℚ) := fun _ => [(1, 0)]

/-- A root-finder returning no roots at all. -/
def rootsEmpty : List ℚ → List (ℚ × ℚ) := fun _ => []

/-- A square-root stand-in, used where the value of `np.sqrt` is irrelevant. -/
def sqrtStub : ℚ → ℚ := fun _ => 0

/-- A square-root stand-in returning `1`. -/
def sqrtStubOne : ℚ → ℚ := fun _ => 1

/-! ## Shape of the two `polfit` branches -/

theorem polfit_found (fitpoly : List ℚ → List ℚ → ℕ → List ℚ)
    (rootsOf : List ℚ → List (ℚ × ℚ)) (x y : List ℚ) (n : ℕ) (dx : ℚ) (rest : List ℚ)
    (h : critPointsOf fitpoly rootsOf x y n = dx :: rest) :
    polfit fitpoly rootsOf x y n =
      ⟨fitpoly (xshiftOf x y) y n, xrefOf x y, xrefOf x y + dx,
        (List.range 7).map fun i =>
          evalPoly (derivN (fitpoly (xshiftOf x y) y n) i) dx / (Nat.factorial i : ℚ)⟩ := by
  unfold polfit
  rw [h]

theorem polfit_notFound (fitpoly : List ℚ → List ℚ → ℕ → List ℚ)
    (rootsOf : List ℚ → List (ℚ × ℚ)) (x y : List ℚ) (n : ℕ)
    (h : critPointsOf fitpoly rootsOf x y n = []) :
    polfit fitpoly rootsOf x y n =
      ⟨fitpoly (xshiftOf x y) y n, xrefOf x y, xrefOf x y, List.replicate 7 0⟩ := by
  unfold polfit
  rw [h]

attribute [local semireducible] Rat.add Rat.sub Rat.mul Rat.inv Rat.ofScientific

/-! ## Claims -/

/-- C1: for every curve on which `polfit` finds at least one critical point,
the returned Taylor coefficients satisfy
`pt[i] = (i-th derivative of the fitted polynomial at dx) / i!` for every
`i` in `0..6`, where `dx` is the selected critical offset
(`crit_points[0]`). -/
theorem polfit_pt_taylor_of_derivatives
    (fitpoly : List ℚ → List ℚ → ℕ → List ℚ) (rootsOf : List ℚ → List (ℚ × ℚ))
    (x y : List ℚ) (n : ℕ) (dx : ℚ) (rest : List ℚ)
    (h : critPointsOf fitpoly rootsOf x y n = dx :: rest) :
    ∀ i < 7, (polfit fitpoly rootsOf x y n).pt.getD i 0
      = (Polynomial.derivative^[i] (toPoly (polfit fitpoly rootsOf x y n).p)).eval dx
        / (Nat.factorial i : ℚ) := by
  intro i hi
  rw [polfit_found fitpoly rootsOf x y n dx rest h]
  simp only
  rw [getD_range_map _ hi, evalPoly_toPoly, toPoly_derivN]

/-- Witness for C1: a concrete quadratic fit with critical point `0`. -/
theorem polfit_pt_taylor_of_derivatives_witness :
    critPointsOf fitQuad rootsAtZero [1, 2, 3] [1, 0, 1] 6 = 0 :: []
    ∧ ∀ i < 7, (polfit fitQuad rootsAtZero [1, 2, 3] [1, 0, 1] 6).pt.getD i 0
        = (Polynomial.derivative^[i]
            (toPoly (polfit fitQuad rootsAtZero [1, 2, 3] [1, 0, 1] 6).p)).eval 0
          / (Nat.factorial i : ℚ) :=
  ⟨by decide,
   polfit_pt_taylor_of_derivatives fitQuad rootsAtZero [1, 2, 3] [1, 0, 1] 6 0 [] (by decide)⟩

/-- C2: when no root of the fitted polynomial's derivative passes the
critical-point filter, `polfit` returns (it does not raise) with
`re = xref` — the position of the minimum-energy sample — and all seven
Taylor coefficients equal to `0`. -/
theorem polfit_no_critical_point_defaults
    (fitpoly : List ℚ → List ℚ → ℕ → List ℚ) (rootsOf : List ℚ → List (ℚ × ℚ))
    (x y : List ℚ) (n : ℕ) (h : critPointsOf fitpoly rootsOf x y n = []) :
    (polfit fitpoly rootsOf x y n).re = xrefOf x y
    ∧ (polfit fitpoly rootsOf x y n).pt = List.replicate 7 0
    ∧ ∀ j < y.length, y.getD (argminIdx y) 0 ≤ y.getD j 0 := by
  rw [polfit_notFound fitpoly rootsOf x y n h]
  exact ⟨rfl, rfl, argminIdx_le y⟩

/-- Witness for C2: a root-finder returning no roots. -/
theorem polfit_no_critical_point_defaults_witness :
    critPointsOf fitQuad rootsEmpty [1, 2, 3] [1, 0, 1] 6 = []
    ∧ (polfit fitQuad rootsEmpty [1, 2, 3] [1, 0, 1] 6).re = xrefOf [1, 2, 3] [1, 0, 1]
    ∧ (polfit fitQuad rootsEmpty [1, 2, 3] [1, 0, 1] 6).pt = List.replicate 7 0
    ∧ ∀ j < ([1, 0, 1] : List ℚ).length,
        ([1, 0, 1] : List ℚ).getD (argminIdx [1, 0, 1]) 0 ≤ ([1, 0, 1] : List ℚ).getD j 0 :=
  ⟨by decide,
   polfit_no_critical_point_defaults fitQuad rootsEmpty [1, 2, 3] [1, 0, 1] 6 (by decide)⟩

/-- C8: evaluating the fitted polynomial at the selected critical offset
`dx` gives exactly the returned Taylor coefficient `pt[0]` (the rational
model makes the two expressions identical, so no tolerance is needed). -/
theorem polfit_pt0_is_poly_value
    (fitpoly : List ℚ → List ℚ → ℕ → List ℚ) (rootsOf : List ℚ → List (ℚ × ℚ))
    (x y : List ℚ) (n : ℕ) (dx : ℚ) (rest : List ℚ)
    (h : critPointsOf fitpoly rootsOf x y n = dx :: rest) :
    (toPoly (polfit fitpoly rootsOf x y n).p).eval dx
      = (polfit fitpoly rootsOf x y n).pt.getD 0 0 := by
  rw [polfit_found fitpoly rootsOf x y n dx rest h]
  simp only
  rw [getD_range_map _ (by norm_num : (0 : ℕ) < 7), evalPoly_toPoly]
  simp [derivN]

/-- Witness for C8: the concrete quartic fit with critical point `1`. -/
theorem polfit_pt0_is_poly_value_witness :
    critPointsOf fitQuartic rootsAtOne [1, 2, 3] [1, 0, 1] 4 = 1 :: []
    ∧ (toPoly (polfit fitQuartic rootsAtOne [1, 2, 3] [1, 0, 1] 4).p).eval 1
        = (polfit fitQuartic rootsAtOne [1, 2, 3] [1, 0, 1] 4).pt.getD 0 0 :=
  ⟨by decide,
   polfit_pt0_is_poly_value fitQuartic rootsAtOne [1, 2, 3] [1, 0, 1] 4 1 [] (by decide)⟩

/-- C6: a root `r` of the fitted polynomial's derivative is kept as a
critical point exactly when `|r.im|` is within `1e-8` of zero and `r.re`
lies strictly between `min(shifted positions) - 0.1` and
`max(shifted positions) + 0.1`: the critical-point list is the first
projection of the roots filtered by `keepRoot`, and membership in the
filtered list is equivalent to `keepRoot`. -/
theorem crit_points_filter_spec
    (fitpoly : List ℚ → List ℚ → ℕ → List ℚ) (rootsOf : List ℚ → List (ℚ × ℚ))
    (x y : List ℚ) (n : ℕ) :
    critPointsOf fitpoly rootsOf x y n
      = ((rootsOf (deriv1 (fitpoly (xshiftOf x y) y n))).filter fun r =>
          decide (keepRoot (xshiftOf x y) r)).map Prod.fst
    ∧ ∀ r ∈ rootsOf (deriv1 (fitpoly (xshiftOf x y) y n)),
        (r ∈ (rootsOf (deriv1 (fitpoly (xshiftOf x y) y n))).filter
            (fun r => decide (keepRoot (xshiftOf x y) r))
          ↔ keepRoot (xshiftOf x y) r) := by
  have hpred : ∀ r : ℚ × ℚ,
      decide (pyAbs r.2 < tolIm ∧
        listMin (xshiftOf x y) - 1/10 < r.1 ∧ r.1 < listMax (xshiftOf x y) + 1/10)
        = decide (keepRoot (xshiftOf x y) r) := by
    intro r
    rw [decide_eq_decide]
    unfold keepRoot
    rw [pyAbs_eq_abs]
  constructor
  · unfold critPointsOf
    congr 1
    exact List.filter_congr fun r _ => hpred r
  · intro r hr
    rw [List.mem_filter, decide_eq_true_eq]
    exact ⟨fun h => h.2, fun h => ⟨hr, h⟩⟩

/-- C9: `polfit` is deterministic — two calls on identical input arrays and
identical order (with the same external fit routine and root-finder, both
plain functions) return identical `FitResult`s. -/
theorem polfit_deterministic
    (fitpoly : List ℚ → List ℚ → ℕ → List ℚ) (rootsOf : List ℚ → List (ℚ × ℚ))
    (x₁ y₁ : List ℚ) (n₁ : ℕ) (x₂ y₂ : List ℚ) (n₂ : ℕ)
    (hx : x₁ = x₂) (hy : y₁ = y₂) (hn : n₁ = n₂) :
    polfit fitpoly rootsOf x₁ y₁ n₁ = polfit fitpoly rootsOf x₂ y₂ n₂ := by
  subst hx hy hn
  rfl

/-- Witness for C9: two identical concrete calls. -/
theorem polfit_deterministic_witness :
    ([1, 2, 3] : List ℚ) = [1, 2, 3] ∧ ([1, 0, 1] : List ℚ) = [1, 0, 1] ∧ (6 : ℕ) = 6
    ∧ polfit fitQuad rootsAtZero [1, 2, 3] [1, 0, 1] 6
        = polfit fitQuad rootsAtZero [1, 2, 3] [1, 0, 1] 6 :=
  ⟨rfl, rfl, rfl,
   polfit_deterministic fitQuad rootsAtZero [1, 2, 3] [1, 0, 1] 6 [1, 2, 3] [1, 0, 1] 6
     rfl rfl rfl⟩

/-- With `Emax = 0` every `dunham` success carries `De = 0` and `D0 = 0`
(the `if Emax != 0` guard on lines 75–77 is not taken). -/
theorem dunham_Emax_zero (sq : ℚ → ℚ) (re : ℚ) (pt : List ℚ) (ptPlain : Bool)
    (mu : ℚ) (n : ℕ) (c : SpecConsts) (h : dunham sq re pt ptPlain mu n 0 = .ok c) :
    c.De = 0 ∧ c.D0 = 0 := by
  simp only [dunham] at h
  split at h
  · exact absurd h (by simp)
  · simp only [Except.ok.injEq] at h
    subst h
    constructor <;> simp [show (0.0 : ℚ) = 0 by decide]

/-- C10: the batch orchestrator calls `dunham(re, pt, args.mu)` with the
Python default `maxEnergy = 0` (the command line offers no way to supply
one), so the `De` and `D0` entries (indices 8 and 9) of every produced
results-table row are `0`. -/
theorem batch_row_De_D0_always_zero
    (fitpoly : List ℚ → List ℚ → ℕ → List ℚ) (rootsOf : List ℚ → List (ℚ × ℚ))
    (sq : ℚ → ℚ) (x y : List ℚ) (poly_order : ℕ) (mu : ℚ)
    (fr : FitResult) (c : SpecConsts)
    (h : batchRow fitpoly rootsOf sq x y poly_order mu = .ok (fr, c)) :
    (resultRow fr c).getD 8 0 = 0 ∧ (resultRow fr c).getD 9 0 = 0 := by
  simp only [batchRow] at h
  cases hd : dunham sq (polfit fitpoly rootsOf x y poly_order).re
      (polfit fitpoly rootsOf x y poly_order).pt
      (decide (critPointsOf fitpoly rootsOf x y poly_order = [])) mu 6 0 with
  | error e => rw [hd] at h; exact absurd h (by simp [Except.map])
  | ok c' =>
    rw [hd] at h
    simp only [Except.map, Except.ok.injEq, Prod.mk.injEq] at h
    obtain ⟨-, hc⟩ := h
    subst hc
    have := dunham_Emax_zero _ _ _ _ _ _ _ hd
    simpa [resultRow] using this

/-- Witness for C10: a concrete batch row that completes. -/
theorem batch_row_De_D0_always_zero_witness :
    batchRow fitQuad rootsAtZero sqrtStubOne [1, 2, 3] [1, 0, 1] 6 1
        = .ok (polfit fitQuad rootsAtZero [1, 2, 3] [1, 0, 1] 6,
            ⟨0, 0.5 * TO_CM / (1 * FORCE_MASS * 2 ^ 2), -6.0 * (0.5 * TO_CM / (1 * FORCE_MASS * 2 ^ 2)) ^ 2 * 1.0 / TO_CM,
             TO_CM * 1, 0, 0, 0, 0⟩)
    ∧ (resultRow (polfit fitQuad rootsAtZero [1, 2, 3] [1, 0, 1] 6)
        ⟨0, 0.5 * TO_CM / (1 * FORCE_MASS * 2 ^ 2), -6.0 * (0.5 * TO_CM / (1 * FORCE_MASS * 2 ^ 2)) ^ 2 * 1.0 / TO_CM,
         TO_CM * 1, 0, 0, 0, 0⟩).getD 8 0 = 0
    ∧ (resultRow (polfit fitQuad rootsAtZero [1, 2, 3] [1, 0, 1] 6)
        ⟨0, 0.5 * TO_CM / (1 * FORCE_MASS * 2 ^ 2), -6.0 * (0.5 * TO_CM / (1 * FORCE_MASS * 2 ^ 2)) ^ 2 * 1.0 / TO_CM,
         TO_CM * 1, 0, 0, 0, 0⟩).getD 9 0 = 0 := by
  constructor
  · decide
  · exact batch_row_De_D0_always_zero fitQuad rootsAtZero sqrtStubOne [1, 2, 3] [1, 0, 1] 6 1
      _ _ (by decide)

/-- C3 (counter-evidence): fed `pt` with `pt[2] = 0`, `dunham` does not fail
with any `DegenerateFit` condition.  With `numpy.float64` coefficients it
returns constants (silently propagating the division-by-zero junk), and
with plain-float coefficients it crashes with an uncontrolled
`ZeroDivisionError`; no recoverable degenerate-fit condition exists in the
code. -/
theorem dunham_pt2_zero_not_degenerate_fit :
    (∃ c, dunham sqrtStub 1 [0, 0, 0, 0, 0, 0, 0] false 1 6 0 = .ok c)
    ∧ dunham sqrtStub 1 [0, 0, 0, 0, 0, 0, 0] true 1 6 0 = .error .zeroDivisionError :=
  ⟨⟨_, rfl⟩, by decide⟩

/-- C7 (counter-evidence): called with a non-positive reduced mass
(`mu = -1` and `mu = 0`), `dunham` returns constants instead of failing
with any `InvalidInput` condition. -/
theorem dunham_nonpositive_mu_returns_constants :
    (∃ c, dunham sqrtStub 1 [1, 1, 1, 1, 1, 1, 1] false (-1) 6 0 = .ok c)
    ∧ (∃ c, dunham sqrtStub 1 [1, 1, 1, 1, 1, 1, 1] false 0 6 0 = .ok c) :=
  ⟨⟨_, rfl⟩, ⟨_, rfl⟩⟩

/-- C4 (counter-evidence): a column fit with `-order 4` still gets nonzero
anharmonic corrections, because the batch loop calls `dunham` without
forwarding `poly_order`, so `n` takes its Python default `6` and the
`n > 5` gate is open.  Concretely: the quartic fit `t^4 + t^3 + t^2` with
critical offset `dx = 1` yields `Wexe ≠ 0`. -/
theorem batch_order4_nonzero_Wexe :
    ∃ fr c, batchRow fitQuartic rootsAtOne sqrtStubOne [1, 2, 3] [1, 0, 1] 4 1 = .ok (fr, c)
      ∧ c.Wexe ≠ 0 := by
  refine ⟨_, _, rfl, ?_⟩
  decide

/-- C5 (counter-evidence): when `polfit` finds no critical point, the batch
does not produce a result row — the very next `dunham` call divides the
plain float `0.0` by the plain float `pt[2] = 0.0` and the whole program
aborts with `ZeroDivisionError` (there is no try/except anywhere). -/
theorem batch_no_critical_point_zero_division :
    batchRow fitQuad rootsEmpty sqrtStubOne [1, 2, 3] [1, 0, 1] 6 1
      = .error .zeroDivisionError := by
  decide

/-- The general form behind C5: *every* batch iteration whose fit finds no
critical point raises `ZeroDivisionError` inside `dunham`. -/
theorem batch_no_critical_point_always_raises
    (fitpoly : List ℚ → List ℚ → ℕ → List ℚ) (rootsOf : List ℚ → List (ℚ × ℚ))
    (sq : ℚ → ℚ) (x y : List ℚ) (poly_order : ℕ) (mu : ℚ)
    (h : critPointsOf fitpoly rootsOf x y poly_order = []) :
    batchRow fitpoly rootsOf sq x y poly_order mu = .error .zeroDivisionError := by
  simp only [batchRow, polfit_notFound fitpoly rootsOf x y poly_order h, h]
  simp [dunham, List.getD, Except.map]

/-- Context for C4: inside `dunham` itself the gate is correct — with
`n ≤ 5` every success carries `Wexe = 0` and `Weye = 0`.  The divergence
of C4 is purely at the call site (line 146), which never passes the order. -/
theorem dunham_order_le5_gate (sq : ℚ → ℚ) (re : ℚ) (pt : List ℚ) (ptPlain : Bool)
    (mu : ℚ) (n : ℕ) (Emax : ℚ) (c : SpecConsts) (hn : n ≤ 5)
    (h : dunham sq re pt ptPlain mu n Emax = .ok c) :
    c.Wexe = 0 ∧ c.Weye = 0 := by
  simp only [dunham] at h
  split at h
  · exact absurd h (by simp)
  · simp only [Except.ok.injEq] at h
    subst h
    have hgate : ¬ n > 5 := by omega
    constructor <;> simp [hgate, show (0.0 : ℚ) = 0 by decide]
